import Mathlib

/-!
Verification of the tldr-bot repository (main.go): a Mastodon bot that
summarizes threads and long posts.  The Go source is shallowly embedded
over `List Char`; external collaborators (the HTML text extractor from
golang.org/x/net/html, the status fetcher, the generation backends) are
taken as function parameters, matching the boundary drawn in the spec.
Loops without a structural termination measure in the source (the regex
replacement scanners, the thread walk) are embedded with an explicit
fuel parameter so that every definition is executable; fuel is always
instantiated large enough that the fuel-exhaustion branch is dead.
-/

/-- Convert a Lean string literal to the character-list representation
used throughout the embedding. -/
def str (s : String) : List Char := s.toList

/-- Character class of the RE2 escape used by Go regexp:
the backslash-s class is exactly tab, newline, form feed,
carriage return and space. -/
def isWsRe (c : Char) : Bool :=
  c = '\t' || c = '\n' || c = '\x0c' || c = '\r' || c = ' '

/-- Go unicode.IsSpace: Latin-1 whitespace plus the Unicode
White_Space property (used by strings.TrimSpace and countWords). -/
def goIsSpace (c : Char) : Bool :=
  c = '\t' || c = '\n' || c = '\x0b' || c = '\x0c' || c = '\r' || c = ' ' ||
  c = '\u0085' || c = '\u00A0' || c = '\u1680' ||
  ('\u2000' ≤ c && c ≤ '\u200A') || c = '\u2028' || c = '\u2029' ||
  c = '\u202F' || c = '\u205F' || c = '\u3000'

/-- Go strings.ToLower, restricted to the ASCII case mapping.  The full
Unicode simple case map agrees with this on every rune whose lowercase
form is one of the characters of the marker string tl;dr, which is the
only use this embedding makes of it. -/
def goLower (c : Char) : Char :=
  if 'A' ≤ c ∧ c ≤ 'Z' then Char.ofNat (c.toNat + 32) else c

/-- A list of per-character predicates matches the front of a string. -/
def startsP : List (Char → Bool) → List Char → Bool
  | [], _ => true
  | _ :: _, [] => false
  | p :: ps, c :: s => p c && startsP ps s

/-- The last four character predicates of the tl;dr pattern. -/
def tlTail : List (Char → Bool) :=
  [fun c => c = 'l' || c = 'L',
   fun c => c = ';',
   fun c => c = 'd' || c = 'D',
   fun c => c = 'r' || c = 'R']

/-- The case-insensitive pattern of the literal tl;dr. -/
def tlPat : List (Char → Bool) :=
  (fun c => c = 't' || c = 'T') :: tlTail

/-- The string begins with tl;dr, case-insensitively. -/
def startsTl (s : List Char) : Bool := startsP tlPat s

/-- Some suffix of the string begins with tl;dr, case-insensitively:
the string contains the marker. -/
def containsTl : List Char → Bool
  | [] => false
  | c :: rest => startsTl (c :: rest) || containsTl rest

/-- Greedy tail of the tl;dr regex: the class of colon, hyphen and
regex whitespace, consumed maximally after the literal. -/
def dropLabelTail (s : List Char) : List Char :=
  s.dropWhile (fun c => c = ':' || c = '-' || isWsRe c)

/-- One pass of Go ReplaceAllString with the pattern
(?i)(optional start-or-whitespace) tl;dr (colon-hyphen-space tail),
replacing every leftmost non-overlapping match by the empty string.
Fuel decreases at every step; fuel at least the length of the list
makes the fuel-exhaustion branch unreachable. -/
def removeTldrF : Nat → List Char → List Char
  | 0, s => s
  | _ + 1, [] => []
  | f + 1, c :: rest =>
    if isWsRe c && startsTl rest then
      removeTldrF f (dropLabelTail (rest.drop 5))
    else if startsTl (c :: rest) then
      removeTldrF f (dropLabelTail (rest.drop 4))
    else
      c :: removeTldrF f rest

/-- One pass of Go ReplaceAllString with the multiline pattern
(hash run at line start, regex whitespace run, rest of line, optional
newline), replacing every match by the empty string.  The boolean flag
records whether the scanner stands at the start of a line. -/
def removeHeadersF : Nat → Bool → List Char → List Char
  | 0, _, s => s
  | _ + 1, _, [] => []
  | f + 1, bol, c :: rest =>
    if bol && c = '#' then
      let r1 := rest.dropWhile (fun d => d = '#')
      let r2 := r1.dropWhile isWsRe
      let r3 := r2.dropWhile (fun d => !(d = '\n'))
      removeHeadersF f true r3.tail
    else
      c :: removeHeadersF f (c = '\n') rest

/-- Go strings.ReplaceAll of the three-character pattern
(punctuation, space, space) by (punctuation, space): the
post-punctuation double-space collapse of the sanitizer. -/
def collapseAfter (p : Char) : List Char → List Char
  | a :: b :: c :: r =>
    if a = p ∧ b = ' ' ∧ c = ' ' then p :: ' ' :: collapseAfter p r
    else a :: collapseAfter p (b :: c :: r)
  | s => s

/-- Drop leading Go whitespace. -/
def trimLeft (s : List Char) : List Char := s.dropWhile goIsSpace

/-- Drop trailing Go whitespace. -/
def trimRight (s : List Char) : List Char :=
  (s.reverse.dropWhile goIsSpace).reverse

/-- Go strings.TrimSpace. -/
def trimSpace (s : List Char) : List Char := trimRight (trimLeft s)

/-- The response sanitizer cleanResponse of main.go: remove tl;dr
labels, remove markdown header lines, collapse double spaces after a
period and after a comma, then trim. -/
def cleanResponse (s : List Char) : List Char :=
  let s1 := removeTldrF s.length s
  let s2 := removeHeadersF s1.length true s1
  let s3 := collapseAfter '.' s2
  let s4 := collapseAfter ',' s3
  trimSpace s4

/-- The pattern occurs as a contiguous substring (Go strings.Contains). -/
def hasSub (pat : List Char) : List Char → Bool
  | [] => pat.isEmpty
  | c :: rest => pat.isPrefixOf (c :: rest) || hasSub pat rest

/-- No line of the string begins with a hash character; the flag plays
the same line-start role as in `removeHeadersF`. -/
def noHdr : Bool → List Char → Bool
  | _, [] => true
  | b, c :: rest => !(b && c = '#') && noHdr (c = '\n') rest

/-- State machine of countWords in main.go: scan runes, counting each
entry into a non-whitespace run. -/
def countWordsAux : Bool → List Char → Nat
  | _, [] => 0
  | inWord, c :: rest =>
    if goIsSpace c then countWordsAux false rest
    else if inWord then countWordsAux inWord rest
    else 1 + countWordsAux true rest

/-- countWords of main.go. -/
def countWords (s : List Char) : Nat := countWordsAux false s

/-- Word count as the specification words it: the number of maximal
non-whitespace runs, obtained by splitting at every Unicode whitespace
character and discarding the empty pieces. -/
def specWordCount (s : List Char) : Nat :=
  ((s.splitOnP goIsSpace).filter (fun w => !w.isEmpty)).length

/-- The long-post gate of checkForLongPost: word count strictly above
200 and the lower-cased text free of the tl;dr marker. -/
def longPostTrigger (content : List Char) : Bool :=
  decide (200 < countWords content) &&
    !(hasSub (str "tl;dr") (content.map goLower))

/-- A Mastodon account, with the fields main.go reads. -/
structure MastoAccount where
  id : Nat
  acct : List Char
  username : List Char
  bot : Bool
deriving DecidableEq

/-- A Mastodon status, with the fields main.go reads.  The parent
pointer InReplyToID is an optional identifier. -/
structure MastoStatus where
  id : Nat
  account : MastoAccount
  content : List Char
  visibility : List Char
  spoilerText : List Char
  inReplyToID : Option Nat
deriving DecidableEq

/-- A mention notification: the notifying account and the mentioned
status. -/
structure MastoNotification where
  account : MastoAccount
  status : MastoStatus
deriving DecidableEq

/-- The outgoing reply handed to PostStatus (a mastodon.Toot). -/
structure Toot where
  status : List Char
  inReplyToID : Nat
  visibility : List Char
  spoilerText : List Char
deriving DecidableEq

/-- The content-warning rule duplicated on both reply paths of
main.go: a non-empty spoiler text not already starting with re:
is prefixed with the four characters of the string re-colon-space. -/
def composeCW (cw : List Char) : List Char :=
  if !cw.isEmpty && !((str "re:").isPrefixOf cw) then str "re: " ++ cw else cw

/-- One transcript line of fetchThread: username, colon-space, and the
extracted plain text of the content. -/
def statusLine (extract : List Char → List Char) (s : MastoStatus) : List Char :=
  s.account.username ++ str ": " ++ extract s.content

/-- The parent-walk loop of fetchThread.  Each iteration prepends the
current transcript line to the accumulator, stops when the current
status has no parent or the fetch collaborator fails, and otherwise
moves to the fetched parent.  The source performs no cycle detection,
so the walk is embedded with fuel; a run that exhausts its fuel stops
exactly like a failed fetch. -/
def fetchThreadAcc (extract : List Char → List Char)
    (fetch : Nat → Option MastoStatus) :
    Nat → MastoStatus → List (List Char) → List (List Char)
  | 0, cur, acc => statusLine extract cur :: acc
  | fuel + 1, cur, acc =>
    match cur.inReplyToID with
    | none => statusLine extract cur :: acc
    | some pid =>
      match fetch pid with
      | none => statusLine extract cur :: acc
      | some p => fetchThreadAcc extract fetch fuel p (statusLine extract cur :: acc)

/-- fetchThread of main.go: walk to the root, join the collected lines
with blank lines, and return a nil error from the single return site. -/
def fetchThread (extract : List Char → List Char)
    (fetch : Nat → Option MastoStatus) (fuel : Nat) (s : MastoStatus) :
    List Char × Option Unit :=
  (List.intercalate (str "\n\n") (fetchThreadAcc extract fetch fuel s []), none)

/-- The thread-mode prompt of summarizeThread. -/
def threadPrompt (t : List Char) : List Char :=
  str "Write a TL;DR summary for this conversation. Reply with just the TL;DR and nothing else:\n" ++ t

/-- The single-post prompt of summarizeThread. -/
def singlePrompt (t : List Char) : List Char :=
  str "Write a TL;DR summary for this post. Refer to the Original poster as OP. Reply with just the TL;DR and nothing else:\n" ++ t

/-- summarizeThread of main.go: build the prompt for the mode, then
dispatch on the configured provider name; an unrecognized provider is
an error.  The two generation backends are external collaborators. -/
def summarizeThread (provider : List Char)
    (genGemini genOllama : List Char → Except (List Char) (List Char))
    (thread : List Char) (isSinglePost : Bool) : Except (List Char) (List Char) :=
  let prompt := if !isSinglePost then threadPrompt thread else singlePrompt thread
  if provider = str "gemini" then genGemini prompt
  else if provider = str "ollama" then genOllama prompt
  else Except.error (str "unsupported LLM provider: " ++ provider)

/-- handleMention of main.go, returning the toot passed to PostStatus,
or none when the mention is ignored.  The env variable
MASTODON_USERNAME is the botUser parameter. -/
def handleMention (botUser provider : List Char)
    (genGemini genOllama : List Char → Except (List Char) (List Char))
    (extract : List Char → List Char) (fetch : Nat → Option MastoStatus)
    (fuel : Nat) (n : MastoNotification) : Option Toot :=
  if n.account.acct = botUser ∨ n.status.account.bot = true then none
  else
    match fetchThread extract fetch fuel n.status with
    | (_, some _) => none
    | (thread, none) =>
      let summary :=
        match summarizeThread provider genGemini genOllama thread false with
        | Except.ok s => s
        | Except.error e =>
          str "uh oh, something went wrong. can\x27t summarize this thread.\n" ++ e
      let response := str "@" ++ n.account.acct ++ str " TL;DR: " ++ cleanResponse summary
      let vis := if n.status.visibility = str "public" then str "unlisted"
                 else n.status.visibility
      some { status := response
             inReplyToID := n.status.id
             visibility := vis
             spoilerText := composeCW n.status.spoilerText }

/-- checkForLongPost of main.go, returning the toot passed to
PostStatus, or none when no reply is posted (gate closed, or backend
error on this unsolicited path). -/
def checkForLongPost (provider : List Char)
    (genGemini genOllama : List Char → Except (List Char) (List Char))
    (extract : List Char → List Char) (st : MastoStatus) : Option Toot :=
  let content := extract st.content
  if longPostTrigger content then
    match summarizeThread provider genGemini genOllama content true with
    | Except.error _ => none
    | Except.ok s =>
      some { status := str "@" ++ st.account.acct ++ str " TL;DR: " ++ cleanResponse s
             inReplyToID := st.id
             visibility := st.visibility
             spoilerText := composeCW st.spoilerText }
  else none

/-- The mention arm of the main event loop: a notification from an
automated account is dropped before handleMention runs. -/
def processMention (botUser provider : List Char)
    (genGemini genOllama : List Char → Except (List Char) (List Char))
    (extract : List Char → List Char) (fetch : Nat → Option MastoStatus)
    (fuel : Nat) (n : MastoNotification) : Option Toot :=
  if n.account.bot then none
  else handleMention botUser provider genGemini genOllama extract fetch fuel n

/-- A failing walk: starting from the leaf, the listed statuses are
visited in order (each parent fetch succeeding), and the fetch of the
parent of the last visited status fails. -/
inductive FailWalk (fetch : Nat → Option MastoStatus) : MastoStatus → List MastoStatus → Prop
  | last {s : MastoStatus} {pid : Nat} :
      s.inReplyToID = some pid → fetch pid = none → FailWalk fetch s [s]
  | step {s : MastoStatus} {pid : Nat} {p : MastoStatus} {l : List MastoStatus} :
      s.inReplyToID = some pid → fetch pid = some p → FailWalk fetch p l →
      FailWalk fetch s (s :: l)

/-- Helper for the word-count refinement: 1 when the string begins
with a non-whitespace character (an open run), else 0. -/
def headRun : List Char → Nat
  | [] => 0
  | c :: _ => if goIsSpace c then 0 else 1

/-- Identity extractor, standing in for the external HTML extractor
applied to plain-text content. -/
def idExtract : List Char → List Char := fun l => l

/-- Backend stub that always succeeds with a fixed summary. -/
def genOkSum : List Char → Except (List Char) (List Char) :=
  fun _ => Except.ok (str "sum")

/-- Backend stub that always fails with the error text boom. -/
def genErrBoom : List Char → Except (List Char) (List Char) :=
  fun _ => Except.error (str "boom")

/-- Backend stub that always fails with the adversarial error text
tl;dr. -/
def genErrTldr : List Char → Except (List Char) (List Char) :=
  fun _ => Except.error (str "tl;dr")

/-- Concrete human account used by the witnesses. -/
def acctAlice : MastoAccount :=
  { id := 10, acct := str "alice", username := str "alice", bot := false }

/-- Concrete human account used by the witnesses. -/
def acctBob : MastoAccount :=
  { id := 11, acct := str "bob", username := str "bob", bot := false }

/-- Concrete human account used by the witnesses. -/
def acctCarol : MastoAccount :=
  { id := 12, acct := str "carol", username := str "carol", bot := false }

/-- Concrete automated account used by the witnesses. -/
def acctAuto : MastoAccount :=
  { id := 13, acct := str "autoposter", username := str "autoposter", bot := true }

/-- Root status of the concrete three-post chain. -/
def stA : MastoStatus :=
  { id := 1, account := acctAlice, content := str "root post",
    visibility := str "public", spoilerText := [], inReplyToID := none }

/-- Middle status of the concrete three-post chain. -/
def stB : MastoStatus :=
  { id := 2, account := acctBob, content := str "hi",
    visibility := str "public", spoilerText := [], inReplyToID := some 1 }

/-- Leaf status of the concrete three-post chain. -/
def stC : MastoStatus :=
  { id := 3, account := acctCarol, content := str "yo",
    visibility := str "public", spoilerText := str "spoilers", inReplyToID := some 2 }

/-- Fetcher resolving the full chain of the concrete scenario. -/
def fetch3 : Nat → Option MastoStatus
  | 1 => some stA
  | 2 => some stB
  | _ => none

/-- Fetcher that resolves the middle status but fails on the root. -/
def fetchFail : Nat → Option MastoStatus
  | 2 => some stB
  | _ => none

/-- A human mention of the leaf of the concrete chain. -/
def notifC : MastoNotification := { account := acctAlice, status := stC }

/-- A status authored by an automated account. -/
def stAuto : MastoStatus :=
  { id := 4, account := acctAuto, content := str "beep",
    visibility := str "public", spoilerText := [], inReplyToID := none }

/-- A human mention whose mentioned status has an automated author. -/
def notifAutoStatus : MastoNotification :=
  { account := acctAlice, status := stAuto }

/-- Plain text of exactly 200 whitespace-separated words. -/
def w200 : List Char := (List.replicate 200 (str "a ")).flatten

/-- Plain text of exactly 201 whitespace-separated words. -/
def w201 : List Char := (List.replicate 201 (str "a ")).flatten

/-- A public long post (201 words, no tl;dr) whose content warning
starts with re-colon but not re-colon-space. -/
def stLong : MastoStatus :=
  { id := 7, account := acctBob, content := w201,
    visibility := str "public", spoilerText := str "re:x", inReplyToID := none }

/-- Reply composed by the mention path in the concrete success
scenario. -/
def mentionToot0 : Toot :=
  { status := str "@alice TL;DR: sum", inReplyToID := 3,
    visibility := str "unlisted", spoilerText := str "re: spoilers" }

/-- Reply composed by the long-post path in the concrete success
scenario. -/
def longToot0 : Toot :=
  { status := str "@bob TL;DR: sum", inReplyToID := 7,
    visibility := str "public", spoilerText := str "re:x" }

/-! Basic facts about the tl;dr pattern and the contains scan. -/

theorem startsTl_nil : startsTl [] = false := rfl

theorem startsTl_eq_false_of_not_contains {s : List Char}
    (h : containsTl s = false) : startsTl s = false := by
  cases s with
  | nil => rfl
  | cons c rest =>
    have := h
    simp only [containsTl, Bool.or_eq_false_iff] at this
    exact this.1

theorem containsTl_tail_eq_false {c : Char} {rest : List Char}
    (h : containsTl (c :: rest) = false) : containsTl rest = false := by
  simp only [containsTl, Bool.or_eq_false_iff] at h
  exact h.2

theorem containsTl_cons_of {c : Char} {rest : List Char}
    (h : containsTl rest = true) : containsTl (c :: rest) = true := by
  simp [containsTl, h]

theorem containsTl_tail_of {l : List Char}
    (h : containsTl l.tail = true) : containsTl l = true := by
  cases l with
  | nil => exact h
  | cons c rest => exact containsTl_cons_of h

theorem containsTl_dropWhile_of {q : Char → Bool} {l : List Char}
    (h : containsTl (l.dropWhile q) = true) : containsTl l = true := by
  induction l with
  | nil => simpa using h
  | cons c rest ih =>
    rw [List.dropWhile_cons] at h
    by_cases hq : q c
    · simp only [hq, if_true] at h
      exact containsTl_cons_of (ih h)
    · simp only [hq, if_false] at h
      exact h

theorem containsTl_drop_of {n : Nat} {l : List Char}
    (h : containsTl (l.drop n) = true) : containsTl l = true := by
  induction n generalizing l with
  | zero => simpa using h
  | succ n ih =>
    cases l with
    | nil => simpa using h
    | cons c rest =>
      exact containsTl_cons_of (ih (by simpa using h))

theorem startsP_append_of {ps : List (Char → Bool)} {v w : List Char}
    (h : startsP ps v = true) : startsP ps (v ++ w) = true := by
  induction ps generalizing v with
  | nil => rfl
  | cons p ps ih =>
    cases v with
    | nil => simp [startsP] at h
    | cons c v' =>
      simp only [startsP, Bool.and_eq_true] at h ⊢
      exact ⟨h.1, ih h.2⟩

theorem containsTl_append_left_of {v w : List Char}
    (h : containsTl v = true) : containsTl (v ++ w) = true := by
  induction v with
  | nil => simp [containsTl] at h
  | cons c v' ih =>
    simp only [containsTl, Bool.or_eq_true] at h ⊢
    rcases h with h | h
    · exact Or.inl (startsP_append_of h)
    · exact Or.inr (ih h)

/-! Identity of the sanitizer stages on strings free of their
respective patterns. -/

theorem removeTldrF_id : ∀ (f : Nat) {s : List Char},
    containsTl s = false → removeTldrF f s = s
  | 0, _, _ => rfl
  | _ + 1, [], _ => rfl
  | f + 1, c :: rest, h => by
    have hrest : containsTl rest = false := containsTl_tail_eq_false h
    have h1 : startsTl rest = false := startsTl_eq_false_of_not_contains hrest
    have h2 : startsTl (c :: rest) = false := startsTl_eq_false_of_not_contains h
    simp only [removeTldrF, h1, h2, Bool.and_false, Bool.false_eq_true, if_false]
    exact congrArg (c :: ·) (removeTldrF_id f hrest)

theorem removeHeadersF_id : ∀ (f : Nat) {b : Bool} {s : List Char},
    noHdr b s = true → removeHeadersF f b s = s
  | 0, _, _, _ => rfl
  | _ + 1, _, [], _ => rfl
  | f + 1, b, c :: rest, h => by
    simp only [noHdr, Bool.and_eq_true, Bool.not_eq_true'] at h
    simp only [removeHeadersF, h.1, Bool.false_eq_true, if_false]
    exact congrArg (c :: ·) (removeHeadersF_id f h.2)

theorem collapseAfter_id {p : Char} : ∀ {s : List Char},
    hasSub [p, ' ', ' '] s = false → collapseAfter p s = s
  | [], _ => rfl
  | [_], _ => rfl
  | [_, _], _ => rfl
  | a :: b :: c :: r, h => by
    simp only [hasSub, Bool.or_eq_false_iff] at h
    have hm : ¬(a = p ∧ b = ' ' ∧ c = ' ') := by
      intro hx
      rcases hx with ⟨ha, hb, hc⟩
      subst ha; subst hb; subst hc
      simp [List.isPrefixOf] at h
    simp only [collapseAfter, hm, if_false]
    refine congrArg (a :: ·) (collapseAfter_id ?_)
    simp only [hasSub, Bool.or_eq_false_iff]
    exact h.2

/-! Facts about the trimming stage. -/

theorem trimRight_append (u : List Char) :
    trimRight u ++ (u.reverse.takeWhile goIsSpace).reverse = u := by
  unfold trimRight
  rw [← List.reverse_append, List.takeWhile_append_dropWhile, List.reverse_reverse]

theorem trimRight_idem (u : List Char) : trimRight (trimRight u) = trimRight u := by
  unfold trimRight
  rw [List.reverse_reverse, List.dropWhile_idempotent]

theorem dropWhile_head_false {p : Char → Bool} :
    ∀ {l : List Char} {a : Char} {t : List Char},
    List.dropWhile p l = a :: t → p a = false := by
  intro l
  induction l with
  | nil => intro a t h; simp at h
  | cons c r ih =>
    intro a t h
    rw [List.dropWhile_cons] at h
    by_cases hc : p c
    · simp only [hc, if_true] at h
      exact ih h
    · simp only [hc, Bool.false_eq_true, if_false] at h
      obtain ⟨h1, _⟩ := List.cons.injEq .. ▸ h
      exact h1 ▸ (by simpa using hc)

theorem trimLeft_trimRight_trimLeft (s : List Char) :
    trimLeft (trimRight (trimLeft s)) = trimRight (trimLeft s) := by
  cases h : trimRight (trimLeft s) with
  | nil => rfl
  | cons a t =>
    have happ := trimRight_append (trimLeft s)
    rw [h, List.cons_append] at happ
    have hhead : goIsSpace a = false := by
      have h2 : List.dropWhile goIsSpace s
          = a :: (t ++ (List.takeWhile goIsSpace (trimLeft s).reverse).reverse) := by
        simpa [trimLeft] using happ.symm
      exact dropWhile_head_false h2
    unfold trimLeft
    exact List.dropWhile_cons_of_neg (by simp [hhead])

theorem trimSpace_idem (s : List Char) : trimSpace (trimSpace s) = trimSpace s := by
  unfold trimSpace
  rw [trimLeft_trimRight_trimLeft, trimRight_idem]

theorem trimSpace_cleanResponse (x : List Char) :
    trimSpace (cleanResponse x) = cleanResponse x := by
  unfold cleanResponse
  exact trimSpace_idem _

/-! The later sanitizer stages cannot manufacture a tl;dr occurrence:
every deletion or splice they perform is bounded by a character that
the pattern cannot contain. -/

theorem tlPat_no_newline : ∀ p ∈ tlPat, p '\n' = false := by
  intro p hp
  simp only [tlPat, tlTail, List.mem_cons, List.not_mem_nil, or_false] at hp
  rcases hp with rfl | rfl | rfl | rfl | rfl <;> decide

theorem removeHeadersF_startsP : ∀ (f : Nat) (ps : List (Char → Bool)) (s : List Char),
    (∀ p ∈ ps, p '\n' = false) →
    startsP ps (removeHeadersF f false s) = true → startsP ps s = true
  | 0, _, _, _, h => h
  | _ + 1, ps, [], _, h => h
  | f + 1, ps, c :: rest, hnl, h => by
    simp only [removeHeadersF, Bool.false_and, Bool.false_eq_true, if_false] at h
    cases ps with
    | nil => rfl
    | cons p ps' =>
      simp only [startsP, Bool.and_eq_true] at h ⊢
      refine ⟨h.1, ?_⟩
      have hcnl : decide (c = '\n') = false := by
        have hpnl := hnl p (List.mem_cons_self p ps')
        by_contra hx
        simp only [Bool.not_eq_false, decide_eq_true_eq] at hx
        rw [hx] at h
        rw [hpnl] at h
        exact Bool.false_ne_true h.1
      rw [hcnl] at h
      exact removeHeadersF_startsP f ps' rest
        (fun q hq => hnl q (List.mem_cons_of_mem p hq)) h.2

theorem removeHeadersF_contains : ∀ (f : Nat) (b : Bool) (s : List Char),
    containsTl (removeHeadersF f b s) = true → containsTl s = true
  | 0, _, _, h => h
  | _ + 1, _, [], h => h
  | f + 1, b, c :: rest, h => by
    by_cases hb : (b && decide (c = '#')) = true
    · simp only [removeHeadersF, hb, if_true] at h
      have h1 := removeHeadersF_contains f true _ h
      have h2 := containsTl_tail_of h1
      have h3 := containsTl_dropWhile_of h2
      have h4 := containsTl_dropWhile_of h3
      have h5 := containsTl_dropWhile_of h4
      exact containsTl_cons_of h5
    · simp only [removeHeadersF, hb, if_false] at h
      simp only [containsTl, Bool.or_eq_true] at h ⊢
      rcases h with h | h
      · left
        simp only [startsTl, tlPat, startsP, Bool.and_eq_true] at h ⊢
        refine ⟨h.1, ?_⟩
        have hcnl : decide (c = '\n') = false := by
          by_contra hx
          simp only [Bool.not_eq_false, decide_eq_true_eq] at hx
          rw [hx] at h
          exact absurd h.1 (by decide)
        rw [hcnl] at h
        exact removeHeadersF_startsP f _ rest
          (by intro q hq
              simp only [tlTail, List.mem_cons, List.not_mem_nil, or_false] at hq
              rcases hq with rfl | rfl | rfl | rfl <;> decide) h.2
      · exact Or.inr (removeHeadersF_contains f _ rest h)

theorem collapseAfter_startsP (p : Char) : ∀ (ps : List (Char → Bool)) (s : List Char),
    (∀ q ∈ ps, q p = false ∧ q ' ' = false) →
    startsP ps (collapseAfter p s) = true → startsP ps s = true
  | ps, a :: b :: c :: r, hq, h => by
    by_cases hm : a = p ∧ b = ' ' ∧ c = ' '
    · simp only [collapseAfter, hm, if_true] at h
      cases ps with
      | nil => rfl
      | cons q ps' =>
        simp only [startsP, Bool.and_eq_true] at h
        exact absurd h.1 (by rw [(hq q (List.mem_cons_self q ps')).1]; simp)
    · simp only [collapseAfter, hm, if_false] at h
      cases ps with
      | nil => rfl
      | cons q ps' =>
        simp only [startsP, Bool.and_eq_true] at h ⊢
        exact ⟨h.1, collapseAfter_startsP p ps' (b :: c :: r)
          (fun q' hq' => hq q' (List.mem_cons_of_mem q hq')) h.2⟩
  | ps, [], _, h => h
  | ps, [_], _, h => h
  | ps, [_, _], _, h => h

theorem collapseAfter_contains (p : Char) (hp : p = '.' ∨ p = ',') :
    ∀ (s : List Char), containsTl (collapseAfter p s) = true → containsTl s = true
  | a :: b :: c :: r, h => by
    by_cases hm : a = p ∧ b = ' ' ∧ c = ' '
    · simp only [collapseAfter, hm, if_true, containsTl, Bool.or_eq_true] at h
      rcases h with h | h | h
      · rcases hp with rfl | rfl <;> simp [startsTl, tlPat, startsP] at h
      · simp [startsTl, tlPat, startsP] at h
      · have := collapseAfter_contains p hp r h
        exact containsTl_cons_of (containsTl_cons_of (containsTl_cons_of this))
    · simp only [collapseAfter, hm, if_false, containsTl, Bool.or_eq_true] at h
      rcases h with h | h
      · rw [show startsTl (a :: collapseAfter p (b :: c :: r))
              = ((a = 't' || a = 'T') && startsP tlTail (collapseAfter p (b :: c :: r)))
            from rfl, Bool.and_eq_true] at h
        have h3 : startsP tlTail (b :: c :: r) = true := by
          refine collapseAfter_startsP p tlTail (b :: c :: r) ?_ h.2
          intro q hq
          simp only [tlTail, List.mem_cons, List.not_mem_nil, or_false] at hq
          rcases hp with rfl | rfl <;>
            (rcases hq with rfl | rfl | rfl | rfl <;> exact ⟨by decide, by decide⟩)
        have hst : startsTl (a :: b :: c :: r) = true := by
          rw [show startsTl (a :: b :: c :: r)
                = ((a = 't' || a = 'T') && startsP tlTail (b :: c :: r)) from rfl,
              Bool.and_eq_true]
          exact ⟨h.1, h3⟩
        rw [show containsTl (a :: b :: c :: r)
              = (startsTl (a :: b :: c :: r) || containsTl (b :: c :: r)) from rfl,
            hst, Bool.true_or]
      · exact containsTl_cons_of (collapseAfter_contains p hp (b :: c :: r) h)
  | [], h => h
  | [_], h => h
  | [_, _], h => h

theorem containsTl_trimRight_of {u : List Char}
    (h : containsTl (trimRight u) = true) : containsTl u = true := by
  have happ := trimRight_append u
  rw [← happ]
  exact containsTl_append_left_of h

theorem containsTl_trimSpace_of {s : List Char}
    (h : containsTl (trimSpace s) = true) : containsTl s = true := by
  unfold trimSpace at h
  exact containsTl_dropWhile_of (containsTl_trimRight_of h)

/-! Claims C2 and C3: idempotence and label removal of the sanitizer. -/

/-- C2, amended: the sanitizer is idempotent on every input whose
sanitized output is free of the three patterns its stages rewrite —
no case-insensitive tl;dr occurrence, no line beginning with a hash,
and no double space after a period or a comma.  (Unconditional
idempotence fails; see the counterexample.) -/
theorem cleanResponse_idem_of_clean_output (x : List Char)
    (h1 : containsTl (cleanResponse x) = false)
    (h2 : noHdr true (cleanResponse x) = true)
    (h3 : hasSub (str ".  ") (cleanResponse x) = false)
    (h4 : hasSub (str ",  ") (cleanResponse x) = false) :
    cleanResponse (cleanResponse x) = cleanResponse x := by
  have e1 : removeTldrF (cleanResponse x).length (cleanResponse x) = cleanResponse x :=
    removeTldrF_id _ h1
  have e3 : collapseAfter '.' (cleanResponse x) = cleanResponse x :=
    collapseAfter_id (show hasSub ['.', ' ', ' '] (cleanResponse x) = false from h3)
  have e4 : collapseAfter ',' (cleanResponse x) = cleanResponse x :=
    collapseAfter_id (show hasSub [',', ' ', ' '] (cleanResponse x) = false from h4)
  show trimSpace (collapseAfter ',' (collapseAfter '.' (removeHeadersF
      (removeTldrF (cleanResponse x).length (cleanResponse x)).length true
      (removeTldrF (cleanResponse x).length (cleanResponse x))))) = cleanResponse x
  rw [e1, removeHeadersF_id _ h2, e3, e4, trimSpace_cleanResponse]

/-- C2, counterexample: on the input consisting of a period, three
spaces and the letter x, one application of the sanitizer leaves a
period followed by two spaces, and a second application collapses
them further, so the two results differ. -/
theorem cleanResponse_not_idempotent :
    cleanResponse (cleanResponse (str ".   x")) ≠ cleanResponse (str ".   x") := by
  decide

/-- Witness for the amended C2 at a concrete clean input. -/
theorem cleanResponse_idem_witness :
    containsTl (cleanResponse (str "hello world.")) = false ∧
    noHdr true (cleanResponse (str "hello world.")) = true ∧
    hasSub (str ".  ") (cleanResponse (str "hello world.")) = false ∧
    hasSub (str ",  ") (cleanResponse (str "hello world.")) = false ∧
    cleanResponse (cleanResponse (str "hello world.")) = cleanResponse (str "hello world.") :=
  ⟨by decide, by decide, by decide, by decide,
   cleanResponse_idem_of_clean_output (str "hello world.")
     (by decide) (by decide) (by decide) (by decide)⟩

/-- C3, amended: one application of the sanitizer never introduces a
case-insensitive tl;dr occurrence into an input that had none.  The
unconditional claim — that the output always contains no such
occurrence — fails, because removing a label can splice the
surrounding characters into a new occurrence; see the counterexample. -/
theorem cleanResponse_no_new_tldr (x : List Char)
    (h : containsTl x = false) : containsTl (cleanResponse x) = false := by
  rw [Bool.eq_false_iff]
  intro hc
  rw [show cleanResponse x = trimSpace (collapseAfter ',' (collapseAfter '.'
      (removeHeadersF (removeTldrF x.length x).length true
        (removeTldrF x.length x)))) from rfl, removeTldrF_id _ h] at hc
  have hc2 := containsTl_trimSpace_of hc
  have hc3 := collapseAfter_contains ',' (Or.inr rfl) _ hc2
  have hc4 := collapseAfter_contains '.' (Or.inl rfl) _ hc3
  have hc5 := removeHeadersF_contains _ _ _ hc4
  rw [h] at hc5
  exact Bool.false_ne_true hc5

/-- C3, counterexample: the input tltl;dr;dr contains a single tl;dr
occurrence; removing it splices the remaining characters into a fresh
tl;dr, so the sanitized output still contains the label. -/
theorem cleanResponse_spliced_tldr :
    cleanResponse (str "tltl;dr;dr") = str "tl;dr" ∧
    containsTl (cleanResponse (str "tltl;dr;dr")) = true := by
  constructor <;> decide

/-- Witness for the amended C3 at a concrete label-free input. -/
theorem cleanResponse_no_new_tldr_witness :
    containsTl (str "hi there.") = false ∧
    containsTl (cleanResponse (str "hi there.")) = false :=
  ⟨by decide, cleanResponse_no_new_tldr (str "hi there.") (by decide)⟩

/-! Claim C5: the long-post gate and the word count as the number of
maximal non-whitespace runs. -/

theorem specWordCount_chunks :
    ∀ (t : List Char) (h : List Char) (tl : List (List Char)),
    t.splitOnP goIsSpace = h :: tl →
    specWordCount t = (tl.filter (fun w => !w.isEmpty)).length + headRun t := by
  intro t
  cases t with
  | nil =>
    intro h tl heq
    rw [List.splitOnP_nil] at heq
    injection heq with e1 e2
    subst e2
    simp [specWordCount, List.splitOnP_nil, headRun]
  | cons b t' =>
    intro h tl heq
    rw [List.splitOnP_cons] at heq
    by_cases q : goIsSpace b
    · rw [if_pos q] at heq
      injection heq with e1 e2
      subst e2
      simp [specWordCount, List.splitOnP_cons, q, headRun]
    · rw [if_neg q] at heq
      obtain ⟨h', tl', heq'⟩ : ∃ h' tl', t'.splitOnP goIsSpace = h' :: tl' := by
        cases hx : t'.splitOnP goIsSpace with
        | nil => exact absurd hx (List.splitOnP_ne_nil _ _)
        | cons a bs => exact ⟨a, bs, rfl⟩
      rw [heq', List.modifyHead_cons] at heq
      injection heq with e1 e2
      subst e2
      simp [specWordCount, List.splitOnP_cons, q, heq', headRun]

theorem countWordsAux_spec : ∀ (l : List Char),
    countWordsAux false l = specWordCount l ∧
    specWordCount l = countWordsAux true l + headRun l := by
  intro l
  induction l with
  | nil =>
    refine ⟨by simp [countWordsAux, specWordCount, List.splitOnP_nil], ?_⟩
    simp [countWordsAux, specWordCount, List.splitOnP_nil, headRun]
  | cons a t ih =>
    obtain ⟨ih1, ih2⟩ := ih
    by_cases q : goIsSpace a
    · have e1 : countWordsAux false (a :: t) = countWordsAux false t := by
        simp [countWordsAux, q]
      have e2 : countWordsAux true (a :: t) = countWordsAux false t := by
        simp [countWordsAux, q]
      have e3 : specWordCount (a :: t) = specWordCount t := by
        simp [specWordCount, List.splitOnP_cons, q]
      have e4 : headRun (a :: t) = 0 := by simp [headRun, q]
      exact ⟨by omega, by omega⟩
    · obtain ⟨h', tl', heq⟩ : ∃ h' tl', t.splitOnP goIsSpace = h' :: tl' := by
        cases hx : t.splitOnP goIsSpace with
        | nil => exact absurd hx (List.splitOnP_ne_nil _ _)
        | cons a bs => exact ⟨a, bs, rfl⟩
      have hch := specWordCount_chunks t h' tl' heq
      have hsw : specWordCount (a :: t)
          = (tl'.filter (fun w => !w.isEmpty)).length + 1 := by
        simp [specWordCount, List.splitOnP_cons, q, heq]
      have haux1 : countWordsAux false (a :: t) = 1 + countWordsAux true t := by
        simp [countWordsAux, q]
      have haux2 : countWordsAux true (a :: t) = countWordsAux true t := by
        simp [countWordsAux, q]
      have hhr : headRun (a :: t) = 1 := by simp [headRun, q]
      exact ⟨by omega, by omega⟩

theorem countWords_eq_specWordCount (s : List Char) : countWords s = specWordCount s :=
  (countWordsAux_spec s).1

/-- C5: the long-post gate fires exactly when the number of maximal
non-whitespace runs (any Unicode whitespace separating) is strictly
greater than 200 and the lower-cased text does not contain tl;dr; in
particular a text of exactly 200 words never fires it. -/
theorem longPostTrigger_spec (s : List Char) :
    (longPostTrigger s = true ↔
      200 < specWordCount s ∧ hasSub (str "tl;dr") (s.map goLower) = false) ∧
    (specWordCount s = 200 → longPostTrigger s = false) := by
  have hrw : longPostTrigger s
      = (decide (200 < specWordCount s) && !(hasSub (str "tl;dr") (s.map goLower))) := by
    unfold longPostTrigger
    rw [countWords_eq_specWordCount]
  constructor
  · rw [hrw]
    simp [Bool.and_eq_true, Bool.not_eq_true']
  · intro h200
    rw [hrw, h200]
    simp

set_option maxRecDepth 8000 in
/-- Witness for C5 at a concrete 200-word text. -/
theorem longPostTrigger_spec_witness :
    specWordCount w200 = 200 ∧ longPostTrigger w200 = false :=
  ⟨by decide, (longPostTrigger_spec w200).2 (by decide)⟩

/-! Claims C6, C7 and C9: the thread assembler. -/

theorem intercalate_three (sep a b c : List Char) :
    List.intercalate sep [a, b, c] = a ++ sep ++ b ++ sep ++ c := by
  simp [List.intercalate, List.intersperse, List.append_assoc]

theorem fetchThreadAcc_failWalk (extract : List Char → List Char)
    (fetch : Nat → Option MastoStatus) :
    ∀ {s : MastoStatus} {l : List MastoStatus}, FailWalk fetch s l →
    ∀ (f : Nat) (acc : List (List Char)), l.length ≤ f + 1 →
    fetchThreadAcc extract fetch f s acc
      = (l.map (statusLine extract)).reverse ++ acc := by
  intro s l hw
  induction hw with
  | last hpid hfetch =>
    intro f acc hf
    cases f with
    | zero => simp [fetchThreadAcc]
    | succ f => simp [fetchThreadAcc, hpid, hfetch]
  | step hpid hfetch hw' ih =>
    rename_i s' pid p l'
    intro f acc hf
    have hne : l' ≠ [] := by cases hw' <;> simp
    cases f with
    | zero =>
      exfalso
      have h1 : 0 < l'.length := List.length_pos.mpr hne
      simp only [List.length_cons] at hf
      omega
    | succ f =>
      simp only [fetchThreadAcc, hpid, hfetch]
      rw [ih f (statusLine extract s' :: acc)
        (by simp only [List.length_cons] at hf; omega)]
      simp [List.append_assoc]

/-- C7: on any walk in which a parent fetch fails after some statuses
were resolved, fetchThread stops at the failure point, returns the
partial transcript root-first, and reports no error. -/
theorem fetchThread_truncated (extract : List Char → List Char)
    (fetch : Nat → Option MastoStatus) (s : MastoStatus)
    (l : List MastoStatus) (f : Nat)
    (hw : FailWalk fetch s l) (hf : l.length ≤ f + 1) :
    fetchThread extract fetch f s
      = (List.intercalate (str "\n\n") (l.map (statusLine extract)).reverse,
         none) := by
  unfold fetchThread
  rw [fetchThreadAcc_failWalk extract fetch hw f [] hf, List.append_nil]

/-- Witness for C7: the concrete chain whose root fetch fails yields
the two resolved lines, root-first, with a nil error. -/
theorem fetchThread_truncated_witness :
    fetchThread idExtract fetchFail 5 stC = (str "bob: hi\n\ncarol: yo", none) :=
  (fetchThread_truncated idExtract fetchFail stC [stC, stB] 5
    (FailWalk.step rfl rfl (FailWalk.last rfl rfl)) (by decide)).trans (by decide)

/-- C6: on a fully resolving chain of three statuses whose root has no
parent, fetchThread yields the three transcript lines root-to-leaf,
each newly resolved ancestor inserted in front of the lines collected
so far. -/
theorem fetchThread_chain (extract : List Char → List Char)
    (fetch : Nat → Option MastoStatus) (A B C : MastoStatus)
    (f : Nat) (ia ib : Nat)
    (hC : C.inReplyToID = some ib) (hB2 : fetch ib = some B)
    (hBp : B.inReplyToID = some ia) (hA2 : fetch ia = some A)
    (hA : A.inReplyToID = none) :
    fetchThread extract fetch (f + 2) C
      = (statusLine extract A ++ str "\n\n" ++ statusLine extract B
          ++ str "\n\n" ++ statusLine extract C, none) := by
  have hstep : ∀ acc, fetchThreadAcc extract fetch f A acc
      = statusLine extract A :: acc := by
    intro acc
    cases f with
    | zero => rfl
    | succ f => simp [fetchThreadAcc, hA]
  unfold fetchThread
  simp only [fetchThreadAcc, hC, hB2, hBp, hA2]
  rw [hstep, intercalate_three]

/-- Witness for C6 at the concrete three-post chain. -/
theorem fetchThread_chain_witness :
    fetchThread idExtract fetch3 5 stC
      = (str "alice: root post\n\nbob: hi\n\ncarol: yo", none) :=
  (fetchThread_chain idExtract fetch3 stA stB stC 3 1 2
    rfl rfl rfl rfl rfl).trans (by decide)

/-- C9: fetchThread returns a nil error for every input and every
fetcher behaviour, so the fetch-error branch of handleMention is dead:
the handler composes no reply exactly when one of its ignore guards
fires. -/
theorem fetchThread_never_errs (botU prov : List Char)
    (gG gO : List Char → Except (List Char) (List Char))
    (extract : List Char → List Char) (fetch : Nat → Option MastoStatus)
    (f : Nat) (s : MastoStatus) (n : MastoNotification) :
    (fetchThread extract fetch f s).2 = none ∧
    (handleMention botU prov gG gO extract fetch f n).isNone
      = (decide (n.account.acct = botU) || n.status.account.bot) := by
  refine ⟨rfl, ?_⟩
  unfold handleMention
  by_cases hg : n.account.acct = botU ∨ n.status.account.bot = true
  · rw [if_pos hg]
    rcases hg with h | h <;> simp [h]
  · rw [if_neg hg]
    push_neg at hg
    have hb : n.status.account.bot = false := by
      simpa using hg.2
    simp only [fetchThread]
    simp [hg.1, hb]

/-! Shape of the two reply paths: what each handler returns once its
guards are settled.  These lemmas are shared by the claims about
visibility, content warnings and backend errors. -/

theorem handleMention_none (botU prov : List Char)
    (gG gO : List Char → Except (List Char) (List Char))
    (extract : List Char → List Char) (fetch : Nat → Option MastoStatus)
    (f : Nat) (n : MastoNotification)
    (hg : n.account.acct = botU ∨ n.status.account.bot = true) :
    handleMention botU prov gG gO extract fetch f n = none := by
  unfold handleMention
  rw [if_pos hg]

theorem handleMention_eq_some (botU prov : List Char)
    (gG gO : List Char → Except (List Char) (List Char))
    (extract : List Char → List Char) (fetch : Nat → Option MastoStatus)
    (f : Nat) (n : MastoNotification)
    (hg : ¬(n.account.acct = botU ∨ n.status.account.bot = true)) :
    handleMention botU prov gG gO extract fetch f n
      = some { status := str "@" ++ n.account.acct ++ str " TL;DR: "
                 ++ cleanResponse (match summarizeThread prov gG gO
                      (fetchThread extract fetch f n.status).1 false with
                    | Except.ok s => s
                    | Except.error e =>
                        str "uh oh, something went wrong. can\x27t summarize this thread.\n" ++ e)
               inReplyToID := n.status.id
               visibility := if n.status.visibility = str "public" then str "unlisted"
                             else n.status.visibility
               spoilerText := composeCW n.status.spoilerText } := by
  unfold handleMention
  rw [if_neg hg]
  exact rfl

theorem checkForLongPost_eq_some (prov : List Char)
    (gG gO : List Char → Except (List Char) (List Char))
    (extract : List Char → List Char) (st : MastoStatus) (v : List Char)
    (ht : longPostTrigger (extract st.content) = true)
    (hs : summarizeThread prov gG gO (extract st.content) true = Except.ok v) :
    checkForLongPost prov gG gO extract st
      = some { status := str "@" ++ st.account.acct ++ str " TL;DR: " ++ cleanResponse v
               inReplyToID := st.id
               visibility := st.visibility
               spoilerText := composeCW st.spoilerText } := by
  unfold checkForLongPost
  simp only [ht, if_true, hs]

theorem checkForLongPost_none_of_err (prov : List Char)
    (gG gO : List Char → Except (List Char) (List Char))
    (extract : List Char → List Char) (st : MastoStatus) (e : List Char)
    (hs : summarizeThread prov gG gO (extract st.content) true = Except.error e) :
    checkForLongPost prov gG gO extract st = none := by
  unfold checkForLongPost
  by_cases ht : longPostTrigger (extract st.content) = true
  · simp only [ht, if_true, hs]
  · simp only [Bool.not_eq_true] at ht
    simp only [ht, Bool.false_eq_true, if_false]

theorem checkForLongPost_none_of_short (prov : List Char)
    (gG gO : List Char → Except (List Char) (List Char))
    (extract : List Char → List Char) (st : MastoStatus)
    (ht : longPostTrigger (extract st.content) = false) :
    checkForLongPost prov gG gO extract st = none := by
  unfold checkForLongPost
  simp only [ht, Bool.false_eq_true, if_false]

/-! Claim C1: visibility of composed replies. -/

/-- C1, amended: on the mention path the reply visibility is the
original status visibility with public downgraded to unlisted — hence
never public; on the long-post path the visibility passes through
unchanged, including public.  The blanket never-public invariant fails
on the long-post path: see the counterexample. -/
theorem reply_visibility (botU prov : List Char)
    (gG gO : List Char → Except (List Char) (List Char))
    (extract : List Char → List Char) (fetch : Nat → Option MastoStatus)
    (f : Nat) (n : MastoNotification) (st : MastoStatus) :
    (∀ r : Toot, handleMention botU prov gG gO extract fetch f n = some r →
      r.visibility = (if n.status.visibility = str "public" then str "unlisted"
                      else n.status.visibility) ∧ r.visibility ≠ str "public") ∧
    (∀ r : Toot, checkForLongPost prov gG gO extract st = some r →
      r.visibility = st.visibility) := by
  constructor
  · intro r h
    by_cases hg : n.account.acct = botU ∨ n.status.account.bot = true
    · rw [handleMention_none botU prov gG gO extract fetch f n hg] at h
      exact absurd h (by simp)
    · rw [handleMention_eq_some botU prov gG gO extract fetch f n hg] at h
      injection h with h2
      subst h2
      refine ⟨rfl, ?_⟩
      show (if n.status.visibility = str "public" then str "unlisted"
            else n.status.visibility) ≠ str "public"
      split_ifs with hv
      · decide
      · exact hv
  · intro r h
    by_cases ht : longPostTrigger (extract st.content) = true
    · cases hs : summarizeThread prov gG gO (extract st.content) true with
      | error e =>
        rw [checkForLongPost_none_of_err prov gG gO extract st e hs] at h
        exact absurd h (by simp)
      | ok v =>
        rw [checkForLongPost_eq_some prov gG gO extract st v ht hs] at h
        injection h with h2
        subst h2
        rfl
    · simp only [Bool.not_eq_true] at ht
      rw [checkForLongPost_none_of_short prov gG gO extract st ht] at h
      exact absurd h (by simp)

set_option maxRecDepth 8000 in
/-- C1, counterexample: a public 201-word post on the long-post path
is answered with a public reply, violating the never-public claim. -/
theorem reply_visibility_public_counterexample :
    (checkForLongPost (str "gemini") genOkSum genOkSum idExtract stLong).map
        Toot.visibility = some (str "public") := by
  decide

set_option maxRecDepth 8000 in
/-- Witness for the amended C1 at the concrete scenarios. -/
theorem reply_visibility_witness :
    handleMention (str "tldrbot") (str "gemini") genOkSum genOkSum idExtract
        fetch3 5 notifC = some mentionToot0 ∧
    (mentionToot0.visibility
        = (if notifC.status.visibility = str "public" then str "unlisted"
           else notifC.status.visibility) ∧
      mentionToot0.visibility ≠ str "public") ∧
    checkForLongPost (str "gemini") genOkSum genOkSum idExtract stLong
        = some longToot0 ∧
    longToot0.visibility = stLong.visibility :=
  ⟨by decide,
   (reply_visibility (str "tldrbot") (str "gemini") genOkSum genOkSum idExtract
      fetch3 5 notifC stLong).1 mentionToot0 (by decide),
   by decide,
   (reply_visibility (str "tldrbot") (str "gemini") genOkSum genOkSum idExtract
      fetch3 5 notifC stLong).2 longToot0 (by decide)⟩

/-! Claim C4: content warnings of composed replies. -/

/-- C4, amended: on either path the reply carries the content warning
of the triggering status transformed by the shared rule: empty stays
empty; a non-empty warning already starting with the three characters
re-colon (no trailing space required) passes through unchanged; any
other non-empty warning gets re-colon-space prepended.  The claim
fails as stated because the code tests the prefix re-colon, not
re-colon-space: see the counterexample. -/
theorem reply_content_warning (botU prov : List Char)
    (gG gO : List Char → Except (List Char) (List Char))
    (extract : List Char → List Char) (fetch : Nat → Option MastoStatus)
    (f : Nat) (n : MastoNotification) (st : MastoStatus) :
    (∀ r : Toot, handleMention botU prov gG gO extract fetch f n = some r →
      r.spoilerText = composeCW n.status.spoilerText) ∧
    (∀ r : Toot, checkForLongPost prov gG gO extract st = some r →
      r.spoilerText = composeCW st.spoilerText) ∧
    (∀ cw : List Char,
      (cw = [] → composeCW cw = []) ∧
      ((str "re:").isPrefixOf cw = true → composeCW cw = cw) ∧
      (cw ≠ [] → (str "re:").isPrefixOf cw = false →
        composeCW cw = str "re: " ++ cw)) := by
  refine ⟨?_, ?_, ?_⟩
  · intro r h
    by_cases hg : n.account.acct = botU ∨ n.status.account.bot = true
    · rw [handleMention_none botU prov gG gO extract fetch f n hg] at h
      exact absurd h (by simp)
    · rw [handleMention_eq_some botU prov gG gO extract fetch f n hg] at h
      injection h with h2
      subst h2
      rfl
  · intro r h
    by_cases ht : longPostTrigger (extract st.content) = true
    · cases hs : summarizeThread prov gG gO (extract st.content) true with
      | error e =>
        rw [checkForLongPost_none_of_err prov gG gO extract st e hs] at h
        exact absurd h (by simp)
      | ok v =>
        rw [checkForLongPost_eq_some prov gG gO extract st v ht hs] at h
        injection h with h2
        subst h2
        rfl
    · simp only [Bool.not_eq_true] at ht
      rw [checkForLongPost_none_of_short prov gG gO extract st ht] at h
      exact absurd h (by simp)
  · intro cw
    refine ⟨?_, ?_, ?_⟩
    · intro hcw
      subst hcw
      decide
    · intro hp
      simp [composeCW, hp]
    · intro hne hp
      have hie : cw.isEmpty = false := by
        cases cw with
        | nil => exact absurd rfl hne
        | cons a l => rfl
      simp [composeCW, hp, hie]

set_option maxRecDepth 8000 in
/-- C4, counterexample: the warning re-colon-x does not start with
re-colon-space, yet the composed long-post reply passes it through
unchanged instead of prepending re-colon-space. -/
theorem reply_content_warning_counterexample :
    (str "re: ").isPrefixOf (str "re:x") = false ∧
    (checkForLongPost (str "gemini") genOkSum genOkSum idExtract stLong).map
        Toot.spoilerText = some (str "re:x") ∧
    composeCW (str "re:x") ≠ str "re: " ++ str "re:x" := by
  refine ⟨by decide, by decide, by decide⟩

set_option maxRecDepth 8000 in
/-- Witness for the amended C4 at the concrete scenarios. -/
theorem reply_content_warning_witness :
    handleMention (str "tldrbot") (str "gemini") genOkSum genOkSum idExtract
        fetch3 5 notifC = some mentionToot0 ∧
    mentionToot0.spoilerText = composeCW notifC.status.spoilerText ∧
    (str "re:").isPrefixOf (str "re: already") = true ∧
    composeCW (str "re: already") = str "re: already" ∧
    composeCW (str "spoilers") = str "re: " ++ str "spoilers" ∧
    composeCW [] = [] :=
  ⟨by decide,
   (reply_content_warning (str "tldrbot") (str "gemini") genOkSum genOkSum
      idExtract fetch3 5 notifC stLong).1 mentionToot0 (by decide),
   by decide,
   ((reply_content_warning (str "tldrbot") (str "gemini") genOkSum genOkSum
      idExtract fetch3 5 notifC stLong).2.2 (str "re: already")).2.1 (by decide),
   ((reply_content_warning (str "tldrbot") (str "gemini") genOkSum genOkSum
      idExtract fetch3 5 notifC stLong).2.2 (str "spoilers")).2.2
     (by decide) (by decide),
   ((reply_content_warning (str "tldrbot") (str "gemini") genOkSum genOkSum
      idExtract fetch3 5 notifC stLong).2.2 []).1 rfl⟩

/-! Claim C8: backend failure on the two paths. -/

/-- C8, amended: when the generation backend fails, the mention path
still posts exactly one reply, whose body is the at-mention followed
by the sanitized apology message with the error text appended — the
literal error text therefore appears exactly when sanitization leaves
it intact, which an adversarial error text can defeat (see the
counterexample) — while the long-post path posts no reply. -/
theorem backend_error_paths (botU prov : List Char)
    (gG gO : List Char → Except (List Char) (List Char))
    (extract : List Char → List Char) (fetch : Nat → Option MastoStatus)
    (f : Nat) (n : MastoNotification) (st : MastoStatus) (e1 e2 : List Char)
    (hm : ¬(n.account.acct = botU ∨ n.status.account.bot = true))
    (hs1 : summarizeThread prov gG gO (fetchThread extract fetch f n.status).1 false
      = Except.error e1)
    (hs2 : summarizeThread prov gG gO (extract st.content) true = Except.error e2) :
    handleMention botU prov gG gO extract fetch f n
      = some { status := str "@" ++ n.account.acct ++ str " TL;DR: "
                 ++ cleanResponse
                     (str "uh oh, something went wrong. can\x27t summarize this thread.\n" ++ e1)
               inReplyToID := n.status.id
               visibility := if n.status.visibility = str "public" then str "unlisted"
                             else n.status.visibility
               spoilerText := composeCW n.status.spoilerText } ∧
    checkForLongPost prov gG gO extract st = none := by
  constructor
  · rw [handleMention_eq_some botU prov gG gO extract fetch f n hm, hs1]
  · exact checkForLongPost_none_of_err prov gG gO extract st e2 hs2

/-- C8, counterexample: with the adversarial backend error text tl;dr
the mention reply is still posted, but its body does not contain the
literal error text — the sanitizer strips it from the apology. -/
theorem backend_error_literal_lost :
    (handleMention (str "tldrbot") (str "gemini") genErrTldr genOkSum idExtract
        fetch3 5 notifC).map Toot.status
      = some (str "@alice TL;DR: uh oh, something went wrong. can\x27t summarize this thread.") ∧
    hasSub (str "tl;dr")
        (str "@alice TL;DR: uh oh, something went wrong. can\x27t summarize this thread.")
      = false := by
  refine ⟨by decide, by decide⟩

set_option maxRecDepth 8000 in
/-- Witness for the amended C8 at the concrete failing backend. -/
theorem backend_error_paths_witness :
    (¬(notifC.account.acct = str "tldrbot" ∨ notifC.status.account.bot = true)) ∧
    summarizeThread (str "gemini") genErrBoom genOkSum
        (fetchThread idExtract fetch3 5 notifC.status).1 false
      = Except.error (str "boom") ∧
    summarizeThread (str "gemini") genErrBoom genOkSum
        (idExtract stLong.content) true
      = Except.error (str "boom") ∧
    (handleMention (str "tldrbot") (str "gemini") genErrBoom genOkSum idExtract
        fetch3 5 notifC).isSome = true ∧
    checkForLongPost (str "gemini") genErrBoom genOkSum idExtract stLong = none :=
  ⟨by decide, by rfl, by rfl,
   by rw [(backend_error_paths (str "tldrbot") (str "gemini") genErrBoom genOkSum
        idExtract fetch3 5 notifC stLong (str "boom") (str "boom")
        (by decide) (by rfl) (by rfl)).1]; rfl,
   (backend_error_paths (str "tldrbot") (str "gemini") genErrBoom genOkSum
      idExtract fetch3 5 notifC stLong (str "boom") (str "boom")
      (by decide) (by rfl) (by rfl)).2⟩

/-! Claim C10: which mentions are ignored. -/

/-- C10: a mention is ignored — no fetch, generation or reply can
influence the outcome, which is none — when the notifying account is
automated, when the notifier is the bot itself, or when the author of
the mentioned status is automated, even if the notifier is human. -/
theorem mention_ignored (botU prov : List Char)
    (gG gO : List Char → Except (List Char) (List Char))
    (extract : List Char → List Char) (fetch : Nat → Option MastoStatus)
    (f : Nat) (n : MastoNotification)
    (h : n.account.bot = true ∨ n.account.acct = botU
        ∨ n.status.account.bot = true) :
    processMention botU prov gG gO extract fetch f n = none := by
  by_cases hb : n.account.bot = true
  · simp [processMention, hb]
  · rcases h with h | h | h
    · exact absurd h hb
    · simp [processMention, hb, handleMention_none botU prov gG gO extract
        fetch f n (Or.inl h)]
    · simp [processMention, hb, handleMention_none botU prov gG gO extract
        fetch f n (Or.inr h)]

/-- Witness for C10: a human mention of a bot-authored status is
dropped. -/
theorem mention_ignored_witness :
    (notifAutoStatus.account.bot = false ∧
      notifAutoStatus.status.account.bot = true) ∧
    processMention (str "tldrbot") (str "gemini") genOkSum genOkSum idExtract
        fetch3 5 notifAutoStatus = none :=
  ⟨by decide,
   mention_ignored (str "tldrbot") (str "gemini") genOkSum genOkSum idExtract
     fetch3 5 notifAutoStatus (Or.inr (Or.inr (by decide)))⟩
